import Mathlib

/-!
Verification of the request-execution pipeline of `currrrl`, a command-line
HTTP client. The repository contains two near-duplicate pipelines:
`src/main.rs` (`AppConfig`, wired into `main`) and `src/client.rs` (`App`,
an unwired duplicate). Both are embedded below; where the two differ the
definitions carry a `Main`/`Client` suffix. Rust strings are modelled as
lists of characters, byte buffers as lists of naturals.
-/

set_option autoImplicit false

namespace Currrrl

/-- Rust strings are modelled as lists of characters. -/
abbrev Str := List Char

/-- Character list of a Lean string literal. -/
def chars (x : String) : Str := x.data

/-- Bytes of an (ASCII) string, as Rust `str::as_bytes` on ASCII input. -/
def strBytes (x : Str) : List Nat := x.map Char.toNat

/-- ASCII lowercasing of one character, as used by the case-insensitive
`http::HeaderMap` key comparison. -/
def lowerChar (c : Char) : Char :=
  if 'A' ≤ c ∧ c ≤ 'Z' then Char.ofNat (c.toNat + 32) else c

/-- ASCII lowercasing of a header name. -/
def lowerStr (x : Str) : Str := x.map lowerChar

/-- ASCII whitespace recognised by `str::trim` (the Unicode classes beyond
ASCII are irrelevant to the header values exercised here). -/
def isWs (c : Char) : Bool := c = ' ' || c = '\t' || c = '\n' || c = '\r'

/-- Rust `str::trim`: drop leading and trailing whitespace. -/
def trim (x : Str) : Str := ((x.dropWhile isWs).reverse.dropWhile isWs).reverse

/-- Rust `h.find(':')` followed by the two slices `h[..key]` / `h[key+1..]`:
splits a raw header entry at its first colon, `none` when no colon occurs. -/
def findColonSplit : Str → Option (Str × Str)
  | [] => none
  | c :: rest =>
    if c = ':' then some ([], rest)
    else (findColonSplit rest).map (fun p => (c :: p.1, p.2))

/-- Rust `s.starts_with(c)`. -/
def startsWithChar (c : Char) : Str → Bool
  | [] => false
  | x :: _ => x = c

/-- The `is_visible_ascii` predicate of the `http` crate (printable ASCII or
tab); `HeaderValue::to_str` succeeds exactly when every byte satisfies it. -/
def isVisibleAscii (c : Char) : Bool :=
  (32 ≤ c.toNat && c.toNat < 127) || c = '\t'

/-- Version string baked into the binary. Modelled from the spec: the
`CARGO_PKG_VERSION` value lives in `Cargo.toml`, which is not under `src/`;
its exact text is immaterial to every claim. -/
def cargoPkgVersion : Str := chars "0.1.0"

/-- The default User-Agent value `currrrl/{CARGO_PKG_VERSION}` set by both
`AppConfig::new` (main.rs line 146) and `App::new` (client.rs line 164). -/
def defaultUA : Str := chars "currrrl/" ++ cargoPkgVersion

/-! ## Request header construction

Both pipelines accumulate headers into a `hyper::Request` builder; the
builder's header map is modelled as the ordered list of `(name, value)`
pairs appended to it (`Builder::header` appends, never replaces). -/

/-- Header loop of `App::run` (client.rs lines 216-226): each entry with a
colon contributes `(name-before-colon, trimmed-value)`; an entry without a
colon contributes `(entry, "")`. -/
def applyManualHeadersClient (b : List (Str × Str)) : List Str → List (Str × Str)
  | [] => b
  | h :: rest =>
    match findColonSplit h with
    | some kv => applyManualHeadersClient (b ++ [(kv.1, trim kv.2)]) rest
    | none => applyManualHeadersClient (b ++ [(h, [])]) rest

/-- Header loop of `AppConfig::run` (main.rs lines 184-192): identical to the
client.rs loop on entries with a colon, but entries without a colon are
skipped (there is no `else` branch). -/
def applyManualHeadersMain (b : List (Str × Str)) : List Str → List (Str × Str)
  | [] => b
  | h :: rest =>
    match findColonSplit h with
    | some kv => applyManualHeadersMain (b ++ [(kv.1, trim kv.2)]) rest
    | none => applyManualHeadersMain b rest

/-- Case-insensitive key lookup, as `HeaderMap::contains_key` (header names
compare ASCII-case-insensitively). -/
def containsKeyCI (b : List (Str × Str)) (name : Str) : Bool :=
  b.any (fun kv => lowerStr kv.1 = lowerStr name)

/-- User-Agent step of `App::run` (client.rs lines 227-231): append the
configured value only when the builder holds no `User-Agent` key yet. -/
def applyUAClient (ua : Option Str) (b : List (Str × Str)) : List (Str × Str) :=
  match ua with
  | none => b
  | some u =>
    if containsKeyCI b (chars "User-Agent") then b
    else b ++ [(chars "User-Agent", u)]

/-- User-Agent step of `AppConfig::run` (main.rs lines 193-195): the
configured value is appended unconditionally. -/
def applyUAMain (ua : Option Str) (b : List (Str × Str)) : List (Str × Str) :=
  match ua with
  | none => b
  | some u => b ++ [(chars "User-Agent", u)]

/-- Standard base64 alphabet. -/
def b64Alphabet : Str :=
  chars "ABCDEFGHIJKLMNOPQRSTUVWXYZabcdefghijklmnopqrstuvwxyz0123456789+/"

/-- Character for a 6-bit group. -/
def b64char (n : Nat) : Char := b64Alphabet.getD n 'A'

/-- Standard base64 with padding, as `base64::encode`. -/
def base64encode : List Nat → Str
  | [] => []
  | [a] => [b64char (a / 4), b64char (a % 4 * 16), '=', '=']
  | [a, b] => [b64char (a / 4), b64char (a % 4 * 16 + b / 16), b64char (b % 16 * 4), '=']
  | a :: b :: c :: rest =>
    [b64char (a / 4), b64char (a % 4 * 16 + b / 16),
     b64char (b % 16 * 4 + c / 64), b64char (c % 64)] ++ base64encode rest

/-- Authorization step of `App::run` (client.rs lines 232-235): when `-u` was
given, append `Authorization: Basic base64(user:password)` after all other
headers. `AppConfig::run` in main.rs has no counterpart: it never reads
`self.auth`. -/
def applyAuthClient (auth : Option Str) (b : List (Str × Str)) : List (Str × Str) :=
  match auth with
  | none => b
  | some a => b ++ [(chars "Authorization", chars "Basic " ++ base64encode (strBytes a))]

/-- Full request-header pipeline of `App::run` (client.rs lines 215-235):
manual headers, then the conditional User-Agent, then Basic auth. -/
def buildHeadersClient (hs : Option (List Str)) (ua auth : Option Str) : List (Str × Str) :=
  applyAuthClient auth (applyUAClient ua (applyManualHeadersClient [] (hs.getD [])))

/-- Full request-header pipeline of `AppConfig::run` (main.rs lines 183-195):
manual headers (dropping colonless entries), then the unconditional
User-Agent; the parsed `auth` field is never consulted. -/
def buildHeadersMain (hs : Option (List Str)) (ua _auth : Option Str) : List (Str × Str) :=
  applyUAMain ua (applyManualHeadersMain [] (hs.getD []))

/-- Per-entry action of the client.rs header loop. -/
def procClient (h : Str) : Str × Str :=
  match findColonSplit h with
  | some kv => (kv.1, trim kv.2)
  | none => (h, [])

/-- Per-entry action of the main.rs header loop (`none` = entry dropped). -/
def procMain (h : Str) : Option (Str × Str) :=
  (findColonSplit h).map (fun kv => (kv.1, trim kv.2))

theorem applyManualHeadersClient_eq (hs : List Str) :
    ∀ b, applyManualHeadersClient b hs = b ++ hs.map procClient := by
  induction hs with
  | nil => intro b; simp [applyManualHeadersClient]
  | cons h rest ih =>
    intro b
    cases hfc : findColonSplit h with
    | none =>
      simp [applyManualHeadersClient, hfc, ih, procClient]
    | some kv =>
      simp [applyManualHeadersClient, hfc, ih, procClient]

theorem applyManualHeadersMain_eq (hs : List Str) :
    ∀ b, applyManualHeadersMain b hs = b ++ hs.filterMap procMain := by
  induction hs with
  | nil => intro b; simp [applyManualHeadersMain]
  | cons h rest ih =>
    intro b
    cases hfc : findColonSplit h with
    | none =>
      simp [applyManualHeadersMain, hfc, ih, procMain]
    | some kv =>
      simp [applyManualHeadersMain, hfc, ih, procMain]

theorem mem_applyUAClient (x : Str × Str) (ua : Option Str) (b : List (Str × Str))
    (hx : x ∈ b) : x ∈ applyUAClient ua b := by
  cases ua with
  | none => exact hx
  | some u =>
    simp only [applyUAClient]
    by_cases hck : containsKeyCI b (chars "User-Agent")
    · simpa [hck] using hx
    · simp [hck, List.mem_append, hx]

theorem mem_applyAuthClient (x : Str × Str) (auth : Option Str) (b : List (Str × Str))
    (hx : x ∈ b) : x ∈ applyAuthClient auth b := by
  cases auth with
  | none => exact hx
  | some a => simp [applyAuthClient, List.mem_append, hx]

/-! ## Request body construction -/

/-- Upload buffer size: `buf = [0_u8; 1024 * 16]` (client.rs line 250,
main.rs line 204). -/
def chunkSize : Nat := 1024 * 16

/-- The upload reader loop spawned for `-T` (client.rs lines 248-261, main.rs
lines 202-212): repeatedly `read` into the reused buffer, break on a zero
read, and send `Bytes::copy_from_slice(&buf)` — the WHOLE buffer, not just
the `read_count` freshly read bytes. A read of `n` bytes overwrites only the
first `n` buffer positions; the rest keeps its previous contents (initially
zeros). Reads are modelled as full: `read` returns
`min remaining.length chunkSize` bytes, the regular-file behaviour. -/
def uploadChunks (remaining buf : List Nat) : List (List Nat) :=
  let readCount := min remaining.length chunkSize
  if _h : readCount = 0 then []
  else
    let newBuf := remaining.take readCount ++ buf.drop readCount
    newBuf :: uploadChunks (remaining.drop readCount) newBuf
termination_by remaining.length
decreasing_by
  simp only [List.length_drop]
  omega

/-- Byte sequence the transport pulls from the channel body for an uploaded
file whose contents are `file`. -/
def uploadBodyBytes (file : List Nat) : List Nat :=
  (uploadChunks file (List.replicate chunkSize 0)).flatten

/-- Outcome of the body-selection `match` of `App::run` (client.rs lines
237-270). `conflictExit` is the `(Some, Some)` arm: diagnostics plus
`exit(-1)` before any request is issued. -/
inductive BodySelection where
  | conflictExit : BodySelection
  | upload : List Nat → BodySelection
  | inline : List Nat → BodySelection
  | empty : BodySelection
deriving DecidableEq

/-- Body selection of `App::run` (client.rs lines 237-270), with the upload
file represented by its contents; `AppConfig::run` (main.rs lines 199-221)
is the same if/else chain minus the conflict arm, which `AppConfig::new` has
already ruled out. -/
def selectBodyClient (uploadContents : Option (List Nat)) (data : Option (List Nat)) :
    BodySelection :=
  match uploadContents, data with
  | some _, some _ => .conflictExit
  | some f, none => .upload (uploadBodyBytes f)
  | none, some d => .inline d
  | none, none => .empty

/-! ## Configuration resolution -/

/-- Method defaulting (main.rs lines 136-144, client.rs lines 154-162):
an explicit `-X` value wins; else `PUT` when an upload file is set, else
`POST` when a data source is set, else `GET`. -/
def resolveMethod (explicit : Option Str) (uploadFile : Option Str)
    (data : Option (List Nat)) : Str :=
  match explicit with
  | some m => m
  | none =>
    if uploadFile.isSome then chars "PUT"
    else if data.isSome then chars "POST"
    else chars "GET"

/-- Configuration state shared by `AppConfig` (main.rs) and `App`
(client.rs); only the fields the claims exercise are carried. -/
structure AppCfg where
  method : Option Str
  ua : Option Str
  data : Option (List Nat)
  uploadFile : Option Str
  headers : Option (List Str)
  auth : Option Str
  urls : List Str
  includeHeaders : Bool
  followRedirects : Bool

/-- Tail of `AppConfig::new` (main.rs lines 136-153): method and user-agent
defaulting followed by the `data`/`upload_file` conflict check, which makes
construction fail (`None?`). -/
def finalizeConfigMain (c : AppCfg) : Option AppCfg :=
  let c1 := { c with method := some (resolveMethod c.method c.uploadFile c.data) }
  let c2 := if c1.ua.isNone then { c1 with ua := some defaultUA } else c1
  if c2.data.isSome && c2.uploadFile.isSome then none else some c2

/-- main.rs `main` (lines 280-294): `AppConfig::run` is entered iff
`AppConfig::new` produced a configuration; otherwise the process exits with
status `-1` having performed no network activity. -/
def runEntered (c : AppCfg) : Bool := (finalizeConfigMain c).isSome

/-! ## Loading the `-d` data source -/

/-- Outcome of loading the `-d` argument: either the run proceeds with the
resolved data bytes, or the process exits with the given status after
printing a diagnostic. -/
inductive LoadResult where
  | proceed : Option (List Nat) → LoadResult
  | exitProcess : Int → Bool → LoadResult
deriving DecidableEq

/-- utils.rs lines 6-12 (`read_file_async`): strip one leading `@` before
reading; the filesystem is a function from names to optional contents. -/
def stripAt : Str → Str
  | '@' :: rest => rest
  | l => l

/-- Resolve a `@file` reference against the filesystem model. -/
def readFileAsync (fs : Str → Option (List Nat)) (filename : Str) : Option (List Nat) :=
  fs (stripAt filename)

/-- The `-d` handling of `AppConfig::new` (main.rs lines 112-121): a literal
argument becomes the body bytes; a `@file` argument is read, and on failure
the diagnostic is printed and the process exits with status 0 (`exit(0)`,
line 116). -/
def loadDataMain (fs : Str → Option (List Nat)) (arg : Str) : LoadResult :=
  if startsWithChar '@' arg then
    match readFileAsync fs arg with
    | none => .exitProcess 0 true
    | some b => .proceed (some b)
  else .proceed (some (strBytes arg))

/-- The `-d` handling of `App::new` (client.rs lines 120-132): identical
except the failure exit is `exit(-1)` (line 127). -/
def loadDataClient (fs : Str → Option (List Nat)) (arg : Str) : LoadResult :=
  if startsWithChar '@' arg then
    match readFileAsync fs arg with
    | none => .exitProcess (-1) true
    | some b => .proceed (some b)
  else .proceed (some (strBytes arg))

/-! ## Response handling

One response step of the work-list loop, identical in `App::run` (client.rs
lines 271-299) and `AppConfig::run` (main.rs lines 224-251): header echo,
redirect re-queueing, body drain. -/

/-- A transport response as the engine consumes it: the `Debug` rendering of
its HTTP version (e.g. `HTTP/1.1`), the numeric status, the canonical reason
phrase of the status (the `Display` rendering of `hyper::StatusCode` is
`code reason`), the header list in iteration order (names as stored by the
header map), and the lazy body as the list of chunks it will yield. -/
structure HttpResponse where
  version : Str
  status : Nat
  reason : Str
  headers : List (Str × Str)
  bodyChunks : List Str
deriving DecidableEq

/-- Fuel-driven helper for decimal rendering (fuel `n + 1` always
suffices, and structural recursion keeps the definition kernel-reducible). -/
def natDigitsAux : Nat → Nat → Str
  | 0, _ => []
  | fuel + 1, n =>
    if n < 10 then [Char.ofNat (48 + n)]
    else natDigitsAux fuel (n / 10) ++ [Char.ofNat (48 + n % 10)]

/-- Decimal digits of a natural number, as `Display` for integers. -/
def natDigits (n : Nat) : Str := natDigitsAux (n + 1) n

/-- Fuel-driven helper for hexadecimal rendering. -/
def natHexDigitsAux : Nat → Nat → Str
  | 0, _ => []
  | fuel + 1, n =>
    if n < 16 then [(chars "0123456789abcdef").getD n '0']
    else natHexDigitsAux fuel (n / 16) ++ [(chars "0123456789abcdef").getD (n % 16) '0']

/-- Hexadecimal digits of a natural number (lowercase), for the `\x` escapes
of `HeaderValue`'s `Debug` rendering. -/
def natHexDigits (n : Nat) : Str := natHexDigitsAux (n + 1) n

/-- The `Debug` rendering of `http::HeaderValue` (the `{:?}` used at
client.rs line 276 / main.rs line 229): the value wrapped in double quotes,
with `"` backslash-escaped and non-visible bytes written `\x..`. -/
def headerValueDebug (v : Str) : Str :=
  '"' :: (v.flatMap (fun c =>
    if c = '"' then ['\\', '"']
    else if isVisibleAscii c then [c]
    else '\\' :: 'x' :: natHexDigits c.toNat)) ++ ['"']

/-- One echoed header line: `format!("{}: {:?}\n", key, value)`
(client.rs line 276, main.rs line 229). -/
def headerLine (kv : Str × Str) : Str :=
  kv.1 ++ chars ": " ++ headerValueDebug kv.2 ++ chars "\n"

/-- The echoed status line: `format!("{:?} {}\n", version, status)`
(client.rs line 273, main.rs line 226); `StatusCode` displays as
`code reason`. -/
def statusLine (r : HttpResponse) : Str :=
  r.version ++ chars " " ++ natDigits r.status ++ chars " " ++ r.reason ++ chars "\n"

/-- All chunks sent for the `include_headers` echo (client.rs lines 272-280,
main.rs lines 225-233): the status line, one line per header, then a blank
line. -/
def headerEcho (r : HttpResponse) : List Str :=
  statusLine r :: (r.headers.map headerLine ++ [chars "\n"])

/-- `HeaderMap::get`: first value stored under the (case-insensitively
compared) name. -/
def getHeaderCI (hs : List (Str × Str)) (name : Str) : Option Str :=
  (hs.find? (fun kv => lowerStr kv.1 = lowerStr name)).map (fun kv => kv.2)

/-- `StatusCode::is_redirection`: 300 ≤ status < 400. -/
def isRedirection (n : Nat) : Bool := 300 ≤ n && n < 400

/-- What one loop iteration does with a response: the chunks handed to the
output channel, in order, and the URL pushed back onto the work-list (the
follow-up request), if any. -/
structure StepResult where
  emitted : List Str
  pushed : Option Str
deriving DecidableEq

/-- One response step of the loop (client.rs lines 271-299, main.rs lines
224-251), given the scheme and host of the current request's URI: echo the
status line and headers when `include_headers` is on; then, when the status
is a redirection, redirects are followed, and a `location` header exists,
resolve it (`to_str` failing on a non-visible-ASCII value is the fatal
`error` case), push it, and `continue` without draining the body; otherwise
drain the body chunks into the channel. -/
def handleResponse (includeHeaders follow : Bool) (scheme host : Str)
    (r : HttpResponse) : Except Unit StepResult :=
  let headerOut := if includeHeaders then headerEcho r else []
  if isRedirection r.status && follow then
    match getHeaderCI r.headers (chars "location") with
    | some loc =>
      if loc.all isVisibleAscii then
        let target :=
          if startsWithChar '/' loc then scheme ++ chars "://" ++ host ++ loc
          else loc
        .ok ⟨headerOut, some target⟩
      else .error ()
    | none => .ok ⟨headerOut ++ r.bodyChunks, none⟩
  else .ok ⟨headerOut ++ r.bodyChunks, none⟩

/-- Text reaching the sink for one step: the emitted chunks in order
(the capacity-1 channel preserves order; the sink task writes each received
chunk). An errored step has sent nothing new. -/
def sinkBytes (res : Except Unit StepResult) : Str :=
  match res with
  | .ok st => st.emitted.flatten
  | .error _ => []

/-- Decomposition of sink text into newline-separated lines. -/
def splitLines : Str → List Str
  | [] => [[]]
  | '\n' :: rest => [] :: splitLines rest
  | c :: rest =>
    match splitLines rest with
    | [] => [[c]]
    | l :: ls => (c :: l) :: ls

/-! ## Concrete responses used by witnesses and counterexamples -/

/-- A 302 response with `Location: /b` and a body that must not be shown. -/
def resp302 : HttpResponse :=
  ⟨chars "HTTP/1.1", 302, chars "Found", [(chars "location", chars "/b")], [chars "IGNORED"]⟩

/-- A 200 response with one content-type header and body `hi`. -/
def resp200 : HttpResponse :=
  ⟨chars "HTTP/1.1", 200, chars "OK", [(chars "Content-Type", chars "text/plain")], [chars "hi"]⟩

/-- A 302 response carrying no `Location` header. -/
def resp302NoLoc : HttpResponse :=
  ⟨chars "HTTP/1.1", 302, chars "Found", [], [chars "x"]⟩

/-! ## Claim C3 -/

/-- Claim C3: for a response in the redirection class carrying a (readable)
`Location` header, with redirects followed the engine pushes the resolved
target onto the work-list — an absolute Location as-is, one beginning with
`/` resolved against the current request's scheme and host — and emits none
of the response's body chunks; with redirects off, the response is emitted
like any other (status/headers echo when enabled, then the body) and nothing
is pushed, so no second request occurs. -/
theorem claim_C3_redirect (ih : Bool) (scheme host : Str) (r : HttpResponse) (loc : Str)
    (hred : isRedirection r.status = true)
    (hloc : getHeaderCI r.headers (chars "location") = some loc)
    (hascii : loc.all isVisibleAscii = true) :
    handleResponse ih true scheme host r =
      .ok ⟨(if ih then headerEcho r else []),
        some (if startsWithChar '/' loc then scheme ++ chars "://" ++ host ++ loc else loc)⟩
  ∧ handleResponse ih false scheme host r =
      .ok ⟨(if ih then headerEcho r else []) ++ r.bodyChunks, none⟩ := by
  constructor
  · simp [handleResponse, hred, hloc, hascii]
  · simp [handleResponse]

/-- Witness for C3: a 302 with `Location: /b` reached via
`http://a.example` is re-queued as `http://a.example/b` with its body
suppressed when following, and emitted in full with nothing queued when not
following. -/
theorem claim_C3_witness :
    handleResponse true true (chars "http") (chars "a.example") resp302 =
      .ok ⟨headerEcho resp302, some (chars "http://a.example/b")⟩ ∧
    handleResponse true false (chars "http") (chars "a.example") resp302 =
      .ok ⟨headerEcho resp302 ++ [chars "IGNORED"], none⟩ := by
  have h := claim_C3_redirect true (chars "http") (chars "a.example") resp302 (chars "/b")
    (by decide) (by decide) (by decide)
  exact ⟨h.1, h.2⟩

/-! ## Claim C10 -/

/-- Claim C10: a redirection-class response with no `Location` header does
not fail the run even with redirects on: nothing is re-queued and the
response falls through to normal handling, its body drained and emitted like
any non-redirect response. -/
theorem claim_C10_redirect_no_location (ih : Bool) (scheme host : Str) (r : HttpResponse)
    (hred : isRedirection r.status = true)
    (hloc : getHeaderCI r.headers (chars "location") = none) :
    handleResponse ih true scheme host r =
      .ok ⟨(if ih then headerEcho r else []) ++ r.bodyChunks, none⟩ := by
  simp [handleResponse, hred, hloc]

/-- Witness for C10: a Location-less 302 processed with follow-redirects on
emits exactly its body and queues nothing. -/
theorem claim_C10_witness :
    handleResponse false true (chars "http") (chars "h") resp302NoLoc =
      .ok ⟨[chars "x"], none⟩ :=
  claim_C10_redirect_no_location false (chars "http") (chars "h") resp302NoLoc
    (by decide) (by decide)

/-! ## Claim C4 -/

/-- Claim C4 (amended): with `include_headers` on, a non-redirected
response reaches the sink as one status line, then one line per response
header, then one blank line, then the body chunks in receipt order — but a
header line renders as `Name: "value"`: the value appears wrapped in double
quotes because the code formats it with the `Debug` formatter, so the pair
`("Content-Type", "text/plain")` yields the line
`Content-Type: "text/plain"`, not `Content-Type: text/plain`. -/
theorem claim_C4_output_order_amended (follow : Bool) (scheme host : Str) (r : HttpResponse)
    (hred : isRedirection r.status = false) :
    handleResponse true follow scheme host r =
      .ok ⟨statusLine r :: (r.headers.map headerLine ++ [chars "\n"] ++ r.bodyChunks), none⟩
  ∧ headerLine (chars "Content-Type", chars "text/plain") =
      chars "Content-Type: \"text/plain\"\n" := by
  constructor
  · simp [handleResponse, hred, headerEcho, List.append_assoc]
  · decide

/-- Counterexample for C4: the 200/`text/plain`/`hi` scenario produces sink
content whose header line is `Content-Type: "text/plain"`; no line of the
sink content equals the claimed `Content-Type: text/plain`. -/
theorem claim_C4_counterexample :
    sinkBytes (handleResponse true true (chars "http") (chars "h") resp200) =
      chars "HTTP/1.1 200 OK\nContent-Type: \"text/plain\"\n\nhi" ∧
    chars "Content-Type: text/plain" ∉
      splitLines (sinkBytes (handleResponse true true (chars "http") (chars "h") resp200)) := by
  exact ⟨by decide, by decide⟩

/-- Witness for C4 (amended): the concrete 200 response is emitted as the
status line, the quoted content-type line, a blank line, then exactly
`hi`. -/
theorem claim_C4_witness :
    handleResponse true true (chars "http") (chars "h") resp200 =
      .ok ⟨[chars "HTTP/1.1 200 OK\n", chars "Content-Type: \"text/plain\"\n",
            chars "\n", chars "hi"], none⟩ :=
  (claim_C4_output_order_amended true (chars "http") (chars "h") resp200 (by decide)).1

/-! ## Claim C8 -/

/-- Claim C8: the request method is the explicit `-X` value when given;
otherwise `PUT` if an upload-file source is set, otherwise `POST` if a data
source is set, otherwise `GET`. -/
theorem claim_C8_method_resolution :
    (∀ (m : Str) (u : Option Str) (d : Option (List Nat)), resolveMethod (some m) u d = m)
  ∧ (∀ (f : Str) (d : Option (List Nat)), resolveMethod none (some f) d = chars "PUT")
  ∧ (∀ (b : List Nat), resolveMethod none none (some b) = chars "POST")
  ∧ resolveMethod none none none = chars "GET" :=
  ⟨fun _ _ _ => rfl, fun _ _ => rfl, fun _ => rfl, rfl⟩

/-! ## Claim C7 -/

/-- Claim C7: a configuration with both a data source and an upload-file
source is a fatal configuration error before any network activity:
`AppConfig::new` fails, so `main` never enters the run loop (zero network
calls), and the duplicate check in `App::run` hits the conflict arm of the
body-selection match, which exits before a request is issued. -/
theorem claim_C7_conflict (c : AppCfg) (hd : c.data.isSome = true)
    (hu : c.uploadFile.isSome = true) :
    finalizeConfigMain c = none ∧ runEntered c = false ∧
    (∀ (f d : List Nat), selectBodyClient (some f) (some d) = BodySelection.conflictExit) := by
  have h1 : finalizeConfigMain c = none := by
    simp only [finalizeConfigMain]
    split <;> simp_all
  exact ⟨h1, by simp [runEntered, h1], fun _ _ => rfl⟩

/-- Witness for C7: a concrete configuration with `-d` bytes and a `-T`
path fails finalization, keeps the run loop unentered, and the client-side
match picks the conflict exit. -/
theorem claim_C7_witness :
    finalizeConfigMain
      ⟨none, none, some [100], some (chars "f"), none, none, [chars "u"], false, false⟩ = none ∧
    runEntered
      ⟨none, none, some [100], some (chars "f"), none, none, [chars "u"], false, false⟩ = false ∧
    selectBodyClient (some [97]) (some [98]) = BodySelection.conflictExit := by
  have h := claim_C7_conflict
    ⟨none, none, some [100], some (chars "f"), none, none, [chars "u"], false, false⟩ rfl rfl
  exact ⟨h.1, h.2.1, h.2.2 [97] [98]⟩

/-! ## Claim C9 -/

/-- Claim C9 is a code bug: on an unreadable `-d @file` source, main.rs
(the wired pipeline) prints the diagnostic and then calls `exit(0)` — a
ZERO exit status, where the claim (and the client.rs duplicate, which calls
`exit(-1)`) requires a non-zero one. Both exits happen during configuration,
before any network activity. -/
theorem claim_C9_exit_status :
    loadDataMain (fun _ => none) (chars "@missing") = LoadResult.exitProcess 0 true ∧
    loadDataClient (fun _ => none) (chars "@missing") = LoadResult.exitProcess (-1) true :=
  ⟨rfl, rfl⟩

/-! ## Claim C1 -/

/-- Computation of the two upload-loop steps on a one-byte file. -/
theorem uploadChunks_singleByte :
    uploadChunks [97] (List.replicate chunkSize 0) =
      [97 :: (List.replicate chunkSize 0).drop 1] := by
  have h0 : ∀ b : List Nat, uploadChunks [] b = [] := by
    intro b
    rw [uploadChunks]
    simp
  rw [uploadChunks]
  norm_num [chunkSize, h0]

/-- Claim C1 is a code bug in the upload branch: the reader loop sends
`Bytes::copy_from_slice(&buf)` — the entire 16 KiB buffer — instead of the
`read_count` bytes actually read, so a one-byte file `[97]` is delivered to
the transport as 16384 bytes (the byte followed by 16383 zeros), not as the
file's contents. The other two body sources behave as claimed: no source
gives the empty body and inline bytes are passed through exactly. -/
theorem claim_C1_upload_body_padded :
    uploadBodyBytes [97] ≠ [97] ∧ (uploadBodyBytes [97]).length = chunkSize ∧
    selectBodyClient none (some [104, 105]) = BodySelection.inline [104, 105] ∧
    selectBodyClient none none = BodySelection.empty := by
  have h2 : (uploadBodyBytes [97]).length = chunkSize := by
    rw [uploadBodyBytes, uploadChunks_singleByte]
    simp only [List.flatten_cons, List.flatten_nil, List.append_nil, List.length_cons,
      List.length_drop, List.length_replicate]
    have hle : (1 : Nat) ≤ chunkSize := by norm_num [chunkSize]
    omega
  refine ⟨?_, h2, rfl, rfl⟩
  intro heq
  rw [heq] at h2
  norm_num [chunkSize] at h2

theorem mem_applyUAMain (x : Str × Str) (ua : Option Str) (b : List (Str × Str))
    (hx : x ∈ b) : x ∈ applyUAMain ua b := by
  cases ua with
  | none => exact hx
  | some u => simp [applyUAMain, List.mem_append, hx]

/-! ## Claim C2 -/

/-- Claim C2 (amended): an entry containing a colon yields, in both
pipelines, a request header named by the text before the first colon with
the text after it trimmed as value; an entry without a colon is kept with an
empty value by the client.rs builder but is DROPPED by the main.rs builder
(whose loop has no else branch): main.rs's manual headers are exactly the
images of the colon-bearing entries. -/
theorem claim_C2_headers_amended (hs : List Str) (entry : Str) (ua auth : Option Str)
    (hmem : entry ∈ hs) :
    (∀ k v, findColonSplit entry = some (k, v) →
      (k, trim v) ∈ buildHeadersClient (some hs) ua auth ∧
      (k, trim v) ∈ buildHeadersMain (some hs) ua auth)
  ∧ (findColonSplit entry = none →
      (entry, ([] : Str)) ∈ buildHeadersClient (some hs) ua auth)
  ∧ applyManualHeadersMain [] hs = hs.filterMap procMain := by
  have hclient : procClient entry ∈ buildHeadersClient (some hs) ua auth := by
    simp only [buildHeadersClient, Option.getD_some]
    refine mem_applyAuthClient _ _ _ (mem_applyUAClient _ _ _ ?_)
    rw [applyManualHeadersClient_eq]
    simp only [List.nil_append]
    exact List.mem_map.mpr ⟨entry, hmem, rfl⟩
  refine ⟨fun k v hkv => ⟨?_, ?_⟩, fun hnone => ?_, ?_⟩
  · have : procClient entry = (k, trim v) := by simp [procClient, hkv]
    exact this ▸ hclient
  · simp only [buildHeadersMain, Option.getD_some]
    refine mem_applyUAMain _ _ _ ?_
    rw [applyManualHeadersMain_eq]
    simp only [List.nil_append]
    exact List.mem_filterMap.mpr ⟨entry, hmem, by simp [procMain, hkv]⟩
  · have : procClient entry = (entry, ([] : Str)) := by simp [procClient, hnone]
    exact this ▸ hclient
  · exact (applyManualHeadersMain_eq hs []).trans (List.nil_append _)

/-- Counterexample for C2: the colonless entry `X-Colonless` is dropped by
the main.rs builder — the built request holds only the default User-Agent,
not the claimed empty-valued `X-Colonless` header. -/
theorem claim_C2_counterexample :
    buildHeadersMain (some [chars "X-Colonless"]) (some defaultUA) none =
      [(chars "User-Agent", defaultUA)] ∧
    (chars "X-Colonless", ([] : Str)) ∉
      buildHeadersMain (some [chars "X-Colonless"]) (some defaultUA) none := by
  exact ⟨rfl, by decide⟩

/-- Witness for C2 (amended): with entries `A: b` and `NoColon`, the
client.rs builder carries `NoColon` with an empty value. -/
theorem claim_C2_witness :
    (chars "NoColon", ([] : Str)) ∈
      buildHeadersClient (some [chars "A: b", chars "NoColon"]) none none :=
  (claim_C2_headers_amended [chars "A: b", chars "NoColon"] (chars "NoColon") none none
      (by decide)).2.1 (by decide)

/-! ## Claim C5 -/

/-- Claim C5 (amended): the client.rs builder appends the configured
User-Agent value exactly when the manual header list produced no
`User-Agent` key (case-insensitive), so the default is present iff no manual
User-Agent entry was supplied and a manual entry always wins; the main.rs
builder instead appends the configured value unconditionally, so the default
is present even when a manual User-Agent header was supplied. -/
theorem claim_C5_ua_amended (hs : List Str) (u : Str) (auth : Option Str) :
    buildHeadersClient (some hs) (some u) auth =
      applyAuthClient auth (hs.map procClient ++
        (if containsKeyCI (hs.map procClient) (chars "User-Agent") then []
         else [(chars "User-Agent", u)]))
  ∧ buildHeadersMain (some hs) (some u) auth =
      hs.filterMap procMain ++ [(chars "User-Agent", u)] := by
  constructor
  · simp only [buildHeadersClient, Option.getD_some, applyManualHeadersClient_eq,
      List.nil_append, applyUAClient]
    by_cases hck : containsKeyCI (hs.map procClient) (chars "User-Agent") <;> simp [hck]
  · simp only [buildHeadersMain, Option.getD_some, applyManualHeadersMain_eq,
      List.nil_append, applyUAMain]

/-- Counterexample for C5: with the manual entry `User-Agent: manual`, the
main.rs builder still appends the default User-Agent value, so the default
is present although a manual User-Agent header was supplied. -/
theorem claim_C5_counterexample :
    buildHeadersMain (some [chars "User-Agent: manual"]) (some defaultUA) none =
      [(chars "User-Agent", chars "manual"), (chars "User-Agent", defaultUA)] ∧
    (chars "User-Agent", defaultUA) ∈
      buildHeadersMain (some [chars "User-Agent: manual"]) (some defaultUA) none := by
  exact ⟨rfl, by decide⟩

/-! ## Claim C6 -/

/-- Claim C6 (amended): the client.rs builder appends
`Authorization: Basic base64(user:password)` after all manual headers and
the User-Agent step, so the header is always carried (last) on every built
request; the main.rs pipeline parses `-u` but never consults it — its built
requests are identical with and without basic auth. The base64 model is
anchored on the concrete `user:password` token. -/
theorem claim_C6_auth_amended (hs : Option (List Str)) (ua : Option Str) (a : Str) :
    buildHeadersClient hs ua (some a) =
      buildHeadersClient hs ua none ++
        [(chars "Authorization", chars "Basic " ++ base64encode (strBytes a))]
  ∧ buildHeadersMain hs ua (some a) = buildHeadersMain hs ua none
  ∧ base64encode (strBytes (chars "user:password")) = chars "dXNlcjpwYXNzd29yZA==" := by
  exact ⟨rfl, rfl, by decide⟩

/-- Counterexample for C6: with `-u user:password` set, the main.rs builder
emits only the default User-Agent — no Authorization header at all. -/
theorem claim_C6_counterexample :
    buildHeadersMain none (some defaultUA) (some (chars "user:password")) =
      [(chars "User-Agent", defaultUA)] ∧
    chars "Authorization" ∉
      (buildHeadersMain none (some defaultUA) (some (chars "user:password"))).map Prod.fst := by
  exact ⟨rfl, by decide⟩

end Currrrl
